/-
Verification of the fluxor-xinlet client against its design specification.

The TypeScript sources are shallowly embedded in Lean 4:
  * bytes are `List Nat` with values < 256 (enforced where needed),
  * cryptographic primitives called from the libraries used by the source
    (@noble/hashes SHA-256 / SHA-512 / HMAC, @noble/curves x25519) are
    implemented here following their published algorithms (FIPS 180-4,
    RFC 2104, RFC 7748), since the client's behaviour is defined by them,
  * stateful code (retry loops, module-level caches, React handlers) is
    embedded as explicit state passing over transcripts of I/O outcomes,
  * JavaScript number arithmetic on amounts is embedded as IEEE-754
    binary64 arithmetic over the rationals (round to nearest, ties to even).
-/

import Mathlib

set_option maxRecDepth 200000

/-! ## Byte-level utilities -/

/-- UTF-8 encoding of a single code point, as byte values
(mirrors what `Buffer.from(str, "utf-8")` produces per character). -/
def utf8Char (c : Char) : List Nat :=
  let n := c.toNat
  if n < 0x80 then [n]
  else if n < 0x800 then
    [0xC0 + n / 64, 0x80 + n % 64]
  else if n < 0x10000 then
    [0xE0 + n / 4096, 0x80 + (n / 64) % 64, 0x80 + n % 64]
  else
    [0xF0 + n / 262144, 0x80 + (n / 4096) % 64, 0x80 + (n / 64) % 64, 0x80 + n % 64]

/-- UTF-8 bytes of a string (mirrors `Buffer.from(s, "utf-8")`). -/
def utf8Bytes (s : String) : List Nat :=
  s.data.flatMap utf8Char

/-! ## Unpadded URL-safe base64

The source encodes with `Buffer.toString("base64")` followed by the
replacements `+` to `-`, `/` to `_` and stripping `=`, and decodes by
re-padding, undoing the replacements and `Buffer.from(str, "base64")`.
On well-formed input this is exactly unpadded URL-safe base64, embedded
here directly at the chunk level. -/

def base64UrlAlphabet : List Char :=
  "ABCDEFGHIJKLMNOPQRSTUVWXYZabcdefghijklmnopqrstuvwxyz0123456789-_".data

def encodeB64Char (n : Nat) : Char := base64UrlAlphabet.getD n 'A'

def decodeB64Char (c : Char) : Nat := base64UrlAlphabet.findIdx (· == c)

/-- Unpadded URL-safe base64 encoding of a byte list
(the `base64URLEncode` of the source, at byte level). -/
def base64URLEncode : List Nat → List Char
  | a :: b :: c :: rest =>
      encodeB64Char (a / 4) ::
      encodeB64Char ((a % 4) * 16 + b / 16) ::
      encodeB64Char ((b % 16) * 4 + c / 64) ::
      encodeB64Char (c % 64) ::
      base64URLEncode rest
  | [a, b] =>
      [encodeB64Char (a / 4),
       encodeB64Char ((a % 4) * 16 + b / 16),
       encodeB64Char ((b % 16) * 4)]
  | [a] =>
      [encodeB64Char (a / 4), encodeB64Char ((a % 4) * 16)]
  | [] => []

/-- Unpadded URL-safe base64 decoding (the `base64URLDecode` of the source:
re-pad, translate the alphabet, standard decode), at chunk level. -/
def base64URLDecode : List Char → List Nat
  | c0 :: c1 :: c2 :: c3 :: rest =>
      let s0 := decodeB64Char c0
      let s1 := decodeB64Char c1
      let s2 := decodeB64Char c2
      let s3 := decodeB64Char c3
      (s0 * 4 + s1 / 16) :: ((s1 % 16) * 16 + s2 / 4) :: ((s2 % 4) * 64 + s3) ::
      base64URLDecode rest
  | [c0, c1, c2] =>
      let s0 := decodeB64Char c0
      let s1 := decodeB64Char c1
      let s2 := decodeB64Char c2
      [s0 * 4 + s1 / 16, (s1 % 16) * 16 + s2 / 4]
  | [c0, c1] =>
      let s0 := decodeB64Char c0
      let s1 := decodeB64Char c1
      [s0 * 4 + s1 / 16]
  | [_] => []
  | [] => []

/-! ## SHA-256 (FIPS 180-4), as used via @noble/hashes

Words are `Nat` reduced modulo `2 ^ 32` at every arithmetic step. -/

def M32 : Nat := 4294967296

def rotr32 (n x : Nat) : Nat := ((x >>> n) ||| (x <<< (32 - n))) % M32

def bsig0 (x : Nat) : Nat := rotr32 2 x ^^^ rotr32 13 x ^^^ rotr32 22 x

def bsig1 (x : Nat) : Nat := rotr32 6 x ^^^ rotr32 11 x ^^^ rotr32 25 x

def ssig0 (x : Nat) : Nat := rotr32 7 x ^^^ rotr32 18 x ^^^ (x >>> 3)

def ssig1 (x : Nat) : Nat := rotr32 17 x ^^^ rotr32 19 x ^^^ (x >>> 10)

def chf (e f g : Nat) : Nat := (e &&& f) ^^^ ((e ^^^ 4294967295) &&& g)

def majf (a b c : Nat) : Nat := (a &&& b) ^^^ (a &&& c) ^^^ (b &&& c)

def K256 : List Nat :=
  [1116352408, 1899447441, 3049323471, 3921009573,
   961987163, 1508970993, 2453635748, 2870763221,
   3624381080, 310598401, 607225278, 1426881987,
   1925078388, 2162078206, 2614888103, 3248222580,
   3835390401, 4022224774, 264347078, 604807628,
   770255983, 1249150122, 1555081692, 1996064986,
   2554220882, 2821834349, 2952996808, 3210313671,
   3336571891, 3584528711, 113926993, 338241895,
   666307205, 773529912, 1294757372, 1396182291,
   1695183700, 1986661051, 2177026350, 2456956037,
   2730485921, 2820302411, 3259730800, 3345764771,
   3516065817, 3600352804, 4094571909, 275423344,
   430227734, 506948616, 659060556, 883997877,
   958139571, 1322822218, 1537002063, 1747873779,
   1955562222, 2024104815, 2227730452, 2361852424,
   2428436474, 2756734187, 3204031479, 3329325298]

structure Hash8 where
  h0 : Nat
  h1 : Nat
  h2 : Nat
  h3 : Nat
  h4 : Nat
  h5 : Nat
  h6 : Nat
  h7 : Nat

def initH256 : Hash8 :=
  ⟨1779033703, 3144134277, 1013904242, 2773480762,
   1359893119, 2600822924, 528734635, 1541459225⟩

/-- Big-endian byte expansion of a word into `k` bytes. -/
def natToBytesBE (k x : Nat) : List Nat :=
  (List.range k).map (fun i => (x >>> (8 * (k - 1 - i))) % 256)

/-- Group a byte list into big-endian 32-bit words. -/
def bytesToWords32 : List Nat → List Nat
  | b0 :: b1 :: b2 :: b3 :: rest =>
      (b0 * 16777216 + b1 * 65536 + b2 * 256 + b3) :: bytesToWords32 rest
  | _ => []

/-- Fuel-bounded chunking of a list into pieces of size `k`. -/
def chunksOf : Nat → Nat → List Nat → List (List Nat)
  | 0, _, _ => []
  | _ + 1, _, [] => []
  | f + 1, k, l => l.take k :: chunksOf f k (l.drop k)

/-- SHA-256 / SHA-512 message padding: `0x80`, zeros, and the bit length
on `lenB` bytes, to a multiple of `block` bytes. -/
def shaPad (block lenB : Nat) (msg : List Nat) : List Nat :=
  msg ++ 0x80 :: List.replicate ((block - (msg.length + 1 + lenB) % block) % block) 0
      ++ natToBytesBE lenB (msg.length * 8)

/-- Extend the (reversed) first 16 words of a block by one schedule word. -/
def extendSchedule256 : Nat → List Nat → List Nat
  | 0, ws => ws
  | f + 1, ws =>
      let w := (ssig1 (ws.getD 1 0) + ws.getD 6 0 + ssig0 (ws.getD 14 0)
                + ws.getD 15 0) % M32
      extendSchedule256 f (w :: ws)

def round256 (st : Hash8) (kw : Nat × Nat) : Hash8 :=
  let t1 := (st.h7 + bsig1 st.h4 + chf st.h4 st.h5 st.h6 + kw.1 + kw.2) % M32
  let t2 := (bsig0 st.h0 + majf st.h0 st.h1 st.h2) % M32
  ⟨(t1 + t2) % M32, st.h0, st.h1, st.h2, (st.h3 + t1) % M32, st.h4, st.h5, st.h6⟩

def compress256 (st : Hash8) (block : List Nat) : Hash8 :=
  let ws := (extendSchedule256 48 (bytesToWords32 block).reverse).reverse
  let e := (K256.zip ws).foldl round256 st
  ⟨(st.h0 + e.h0) % M32, (st.h1 + e.h1) % M32, (st.h2 + e.h2) % M32,
   (st.h3 + e.h3) % M32, (st.h4 + e.h4) % M32, (st.h5 + e.h5) % M32,
   (st.h6 + e.h6) % M32, (st.h7 + e.h7) % M32⟩

/-- SHA-256 digest (32 bytes) of a byte list. -/
def sha256Bytes (msg : List Nat) : List Nat :=
  let padded := shaPad 64 8 msg
  let st := (chunksOf padded.length 64 padded).foldl compress256 initH256
  natToBytesBE 4 st.h0 ++ natToBytesBE 4 st.h1 ++ natToBytesBE 4 st.h2 ++
  natToBytesBE 4 st.h3 ++ natToBytesBE 4 st.h4 ++ natToBytesBE 4 st.h5 ++
  natToBytesBE 4 st.h6 ++ natToBytesBE 4 st.h7

/-- HMAC-SHA256 (RFC 2104), the `hmac(sha256, key, msg)` of @noble/hashes. -/
def hmacSha256 (key msg : List Nat) : List Nat :=
  let k0 := if 64 < key.length then sha256Bytes key else key
  let kb := k0 ++ List.replicate (64 - k0.length) 0
  sha256Bytes ((kb.map (fun b => b ^^^ 0x5c)) ++
    sha256Bytes ((kb.map (fun b => b ^^^ 0x36)) ++ msg))

/-! ## SHA-512 (FIPS 180-4), as used via @noble/hashes -/

def M64 : Nat := 18446744073709551616

def rotr64 (n x : Nat) : Nat := ((x >>> n) ||| (x <<< (64 - n))) % M64

def bsig0w (x : Nat) : Nat := rotr64 28 x ^^^ rotr64 34 x ^^^ rotr64 39 x

def bsig1w (x : Nat) : Nat := rotr64 14 x ^^^ rotr64 18 x ^^^ rotr64 41 x

def ssig0w (x : Nat) : Nat := rotr64 1 x ^^^ rotr64 8 x ^^^ (x >>> 7)

def ssig1w (x : Nat) : Nat := rotr64 19 x ^^^ rotr64 61 x ^^^ (x >>> 6)

def chfw (e f g : Nat) : Nat := (e &&& f) ^^^ ((e ^^^ 18446744073709551615) &&& g)

def K512 : List Nat :=
  [4794697086780616226, 8158064640168781261, 13096744586834688815,
   16840607885511220156, 4131703408338449720, 6480981068601479193,
   10538285296894168987, 12329834152419229976, 15566598209576043074,
   1334009975649890238, 2608012711638119052, 6128411473006802146,
   8268148722764581231, 9286055187155687089, 11230858885718282805,
   13951009754708518548, 16472876342353939154, 17275323862435702243,
   1135362057144423861, 2597628984639134821, 3308224258029322869,
   5365058923640841347, 6679025012923562964, 8573033837759648693,
   10970295158949994411, 12119686244451234320, 12683024718118986047,
   13788192230050041572, 14330467153632333762, 15395433587784984357,
   489312712824947311, 1452737877330783856, 2861767655752347644,
   3322285676063803686, 5560940570517711597, 5996557281743188959,
   7280758554555802590, 8532644243296465576, 9350256976987008742,
   10552545826968843579, 11727347734174303076, 12113106623233404929,
   14000437183269869457, 14369950271660146224, 15101387698204529176,
   15463397548674623760, 17586052441742319658, 1182934255886127544,
   1847814050463011016, 2177327727835720531, 2830643537854262169,
   3796741975233480872, 4115178125766777443, 5681478168544905931,
   6601373596472566643, 7507060721942968483, 8399075790359081724,
   8693463985226723168, 9568029438360202098, 10144078919501101548,
   10430055236837252648, 11840083180663258601, 13761210420658862357,
   14299343276471374635, 14566680578165727644, 15097957966210449927,
   16922976911328602910, 17689382322260857208, 500013540394364858,
   748580250866718886, 1242879168328830382, 1977374033974150939,
   2944078676154940804, 3659926193048069267, 4368137639120453308,
   4836135668995329356, 5532061633213252278, 6448918945643986474,
   6902733635092675308, 7801388544844847127]

def initH512 : Hash8 :=
  ⟨7640891576956012808, 13503953896175478587, 4354685564936845355,
   11912009170470909681, 5840696475078001361, 11170449401992604703,
   2270897969802886507, 6620516959819538809⟩

/-- Group a byte list into big-endian 64-bit words. -/
def bytesToWords64 : List Nat → List Nat
  | b0 :: b1 :: b2 :: b3 :: b4 :: b5 :: b6 :: b7 :: rest =>
      (((((((b0 * 256 + b1) * 256 + b2) * 256 + b3) * 256 + b4) * 256 + b5)
        * 256 + b6) * 256 + b7) :: bytesToWords64 rest
  | _ => []

def extendSchedule512 : Nat → List Nat → List Nat
  | 0, ws => ws
  | f + 1, ws =>
      let w := (ssig1w (ws.getD 1 0) + ws.getD 6 0 + ssig0w (ws.getD 14 0)
                + ws.getD 15 0) % M64
      extendSchedule512 f (w :: ws)

def round512 (st : Hash8) (kw : Nat × Nat) : Hash8 :=
  let t1 := (st.h7 + bsig1w st.h4 + chfw st.h4 st.h5 st.h6 + kw.1 + kw.2) % M64
  let t2 := (bsig0w st.h0 + majf st.h0 st.h1 st.h2) % M64
  ⟨(t1 + t2) % M64, st.h0, st.h1, st.h2, (st.h3 + t1) % M64, st.h4, st.h5, st.h6⟩

def compress512 (st : Hash8) (block : List Nat) : Hash8 :=
  let ws := (extendSchedule512 64 (bytesToWords64 block).reverse).reverse
  let e := (K512.zip ws).foldl round512 st
  ⟨(st.h0 + e.h0) % M64, (st.h1 + e.h1) % M64, (st.h2 + e.h2) % M64,
   (st.h3 + e.h3) % M64, (st.h4 + e.h4) % M64, (st.h5 + e.h5) % M64,
   (st.h6 + e.h6) % M64, (st.h7 + e.h7) % M64⟩

/-- SHA-512 digest (64 bytes) of a byte list. -/
def sha512Bytes (msg : List Nat) : List Nat :=
  let padded := shaPad 128 16 msg
  let st := (chunksOf padded.length 128 padded).foldl compress512 initH512
  natToBytesBE 8 st.h0 ++ natToBytesBE 8 st.h1 ++ natToBytesBE 8 st.h2 ++
  natToBytesBE 8 st.h3 ++ natToBytesBE 8 st.h4 ++ natToBytesBE 8 st.h5 ++
  natToBytesBE 8 st.h6 ++ natToBytesBE 8 st.h7

/-! ## X25519 (RFC 7748), as used via @noble/curves `x25519.getSharedSecret` -/

def p25519 : Nat := 57896044618658097711785492504343953926634992332820282019728792003956564819949

def a24 : Nat := 121665

def fAdd (a b : Nat) : Nat := (a + b) % p25519

def fSub (a b : Nat) : Nat := (a % p25519 + (p25519 - b % p25519)) % p25519

def fMul (a b : Nat) : Nat := (a * b) % p25519

/-- Fuel-bounded modular exponentiation by squaring. -/
def powMod : Nat → Nat → Nat → Nat → Nat
  | 0, _, _, m => 1 % m
  | f + 1, b, e, m =>
      if e = 0 then 1 % m
      else
        let h := powMod f ((b * b) % m) (e / 2) m
        if e % 2 = 1 then (h * b) % m else h

/-- Inverse in the field of order `p25519` via Fermat. -/
def fInv (a : Nat) : Nat := powMod 300 a (p25519 - 2) p25519

/-- Little-endian byte decoding. -/
def decodeLE (bs : List Nat) : Nat := bs.foldr (fun b acc => acc * 256 + b) 0

/-- Little-endian 32-byte encoding of a field element. -/
def encodeLE32 (x : Nat) : List Nat :=
  (List.range 32).map (fun i => (x >>> (8 * i)) % 256)

/-- The u-coordinate decoding of RFC 7748 (mask the top bit of byte 31,
then interpret little-endian). -/
def decodeUCoordinate (bs : List Nat) : Nat :=
  decodeLE (bs.set 31 (bs.getD 31 0 &&& 127))

/-- The X25519 scalar clamp (RFC 7748 decodeScalar25519; identical to the
bit operations `d[0] &= 248; d[31] &= 127; d[31] |= 64` in the source). -/
def clampScalarBytes (bs : List Nat) : List Nat :=
  let b0 := bs.getD 0 0 &&& 248
  let b31 := (bs.getD 31 0 &&& 127) ||| 64
  (bs.set 0 b0).set 31 b31

structure LadderState where
  x2 : Nat
  z2 : Nat
  x3 : Nat
  z3 : Nat
  sw : Nat

/-- One Montgomery-ladder step for bit index `t` (RFC 7748 section 5). -/
def ladderStep (x1 k t : Nat) (st : LadderState) : LadderState :=
  let kt := (k >>> t) &&& 1
  let s := st.sw ^^^ kt
  let x2 := if s = 1 then st.x3 else st.x2
  let x3 := if s = 1 then st.x2 else st.x3
  let z2 := if s = 1 then st.z3 else st.z2
  let z3 := if s = 1 then st.z2 else st.z3
  let A := fAdd x2 z2
  let AA := fMul A A
  let B := fSub x2 z2
  let BB := fMul B B
  let E := fSub AA BB
  let C := fAdd x3 z3
  let D := fSub x3 z3
  let DA := fMul D A
  let CB := fMul C B
  ⟨fMul AA BB,
   fMul E (fAdd AA (fMul a24 E)),
   fMul (fAdd DA CB) (fAdd DA CB),
   fMul x1 (fMul (fSub DA CB) (fSub DA CB)),
   kt⟩

/-- Identity on `f`; matching on `n` makes kernel evaluation force `n`
first, keeping reduction of the ladder iteration in constant stack. -/
def seqNat {α : Sort u} (n : Nat) (f : α) : α :=
  match n with
  | 0 => f
  | _ + 1 => f

/-- Run the ladder over bit indices `fuel - 1` down to `0` (the `seqNat`
wrappers evaluate each state component eagerly and do not change the
result). -/
def ladderLoop (x1 k : Nat) : Nat → LadderState → LadderState
  | 0, st => st
  | t + 1, st =>
      let st' := ladderStep x1 k t st
      seqNat st'.x2 (seqNat st'.z2 (seqNat st'.x3 (seqNat st'.z3
        (ladderLoop x1 k t st'))))

/-- Full X25519 Montgomery ladder on field elements: 255 bits, final
conditional swap, projective-to-affine division. -/
def montgomeryLadder (u k : Nat) : Nat :=
  let x1 := u % p25519
  let st := ladderLoop x1 k 255 ⟨1, 0, x1, 1, 0⟩
  let x2 := if st.sw = 1 then st.x3 else st.x2
  let z2 := if st.sw = 1 then st.z3 else st.z2
  fMul x2 (fInv z2)

/-- The `x25519.getSharedSecret(priv, pub)` of @noble/curves: length-checked
scalar clamp, u-coordinate decode, ladder, zero-output rejection. -/
def x25519GetSharedSecret (scalarBytes uBytes : List Nat) : Except String (List Nat) :=
  if scalarBytes.length ≠ 32 then .error "invalid scalar length"
  else if uBytes.length ≠ 32 then .error "invalid u coordinate length"
  else
    let k := decodeLE (clampScalarBytes scalarBytes)
    let u := decodeUCoordinate uBytes
    let r := montgomeryLadder u k
    if r = 0 then .error "invalid private or public key received"
    else .ok (encodeLE32 r)

/-! ## Shared-secret derivation (src/lib/mixin-route-client.ts, `Web3Client`) -/

/-- The `ed25519PrivateToCurve25519` of the source: take the first 32 bytes
as the Ed25519 seed, SHA-512 it, keep the first 32 digest bytes, and apply
the bit operations `d[0] &= 248; d[31] &= 127; d[31] |= 64`. -/
def ed25519PrivateToCurve25519 (ed25519PrivateKey : List Nat) : List Nat :=
  let seed := ed25519PrivateKey.take 32
  let digest := sha512Bytes seed
  let d := digest.take 32
  let d0 := d.getD 0 0 &&& 248
  let d31 := (d.getD 31 0 &&& 127) ||| 64
  (d.set 0 d0).set 31 d31

/-- The `generateSharedKey` of the source, at byte level (after the hex
decode of `session_private_key` and the base64url decode of the remote
key): convert the local seed to a Curve25519 scalar, then run
`x25519.getSharedSecret` with the decoded remote key bytes used directly
as the public value. -/
def generateSharedKey (privateKeySeed remotePublicKey : List Nat) :
    Except String (List Nat) :=
  x25519GetSharedSecret (ed25519PrivateToCurve25519 privateKeySeed) remotePublicKey

/-- Modelled from the spec: the step "Convert the remote Ed25519 public
point to its Montgomery-form X-coordinate". This conversion (the
birational map `u = (1 + y) / (1 - y)` applied to the decoded Edwards
y-coordinate, the `edwardsToMontgomery` of the curve library) does not
appear in the code under src on the executed path; it is defined here
solely to compare the spec's described pipeline with the code's. -/
def edwardsToMontgomeryU (pubBytes : List Nat) : List Nat :=
  let y := decodeLE (pubBytes.set 31 (pubBytes.getD 31 0 &&& 127)) % p25519
  encodeLE32 (fMul (fAdd 1 y) (fInv (fSub 1 y)))

/-- Modelled from the spec: the full `deriveSharedSecret` pipeline in the
spec's words — clamped-SHA-512 Montgomery scalar from the local seed,
Edwards-to-Montgomery conversion of the remote public point, then X25519. -/
def deriveSharedSecretSpec (localSeed remotePublicKey : List Nat) :
    Except String (List Nat) :=
  x25519GetSharedSecret (ed25519PrivateToCurve25519 localSeed)
    (edwardsToMontgomeryU remotePublicKey)

/-! ## Request signing (`Web3Client.signRequest` / `RouteAPISigner.signRequest`)

Both signing classes build the same canonical string and signature. JS
`toUpperCase` agrees with Lean `String.toUpper` on the ASCII method names
used; `Buffer.from(data)` is the UTF-8 encoding. -/

/-- The canonical string of the source's template literal
(backquoted timestamp, uppercased method, uri, body, concatenated). -/
def canonicalSignData (timestamp : Nat) (method uri body : String) : String :=
  toString timestamp ++ method.toUpper ++ uri ++ body

/-- The `signRequest` of the source: HMAC-SHA256 of the canonical string
under the shared key, prefixed with the UTF-8 app id and base64url-encoded
without padding. -/
def signRequest (sharedKey : List Nat) (appId : String)
    (method uri body : String) (timestamp : Nat) : String :=
  String.mk (base64URLEncode (utf8Bytes appId ++
    hmacSha256 sharedKey (utf8Bytes (canonicalSignData timestamp method uri body))))

/-! ## Transport (`Web3Client.doRequest`): response handling and retry -/

/-- Minimal JSON value model for response bodies. -/
inductive Json where
  | jnull : Json
  | jbool : Bool → Json
  | jnum : Int → Json
  | jstr : String → Json
  | jarr : List Json → Json
  | jobj : List (String × Json) → Json

def jlookup (kvs : List (String × Json)) (k : String) : Option Json :=
  (kvs.find? (fun kv => kv.1 == k)).map (·.2)

/-- JS property access `v.k` (undefined unless `v` is an object with `k`). -/
def jprop (j : Json) (k : String) : Option Json :=
  match j with
  | .jobj kvs => jlookup kvs k
  | _ => none

/-- JS truthiness of a JSON value. -/
def jTruthy : Json → Bool
  | .jnull => false
  | .jbool b => b
  | .jnum n => !(n == 0)
  | .jstr s => !(s == "")
  | .jarr _ => true
  | .jobj _ => true

def jGetNum : Option Json → Option Int
  | some (.jnum n) => some n
  | _ => none

def jGetStr : Option Json → Option String
  | some (.jstr s) => some s
  | _ => none

structure QuoteRangeM where
  min : String
  max : String
deriving DecidableEq

/-- The `MixinRouteAPIError` fields the transport sets. -/
structure MixinRouteAPIErrorM where
  statusCode : Nat
  code : Option Int
  description : Option String
  rawBody : String
  range : Option QuoteRangeM

/-- The `errorData.error.extra?.range` extraction. -/
def extractRange (e : Json) : Option QuoteRangeM :=
  match jprop e "extra" with
  | some extra =>
      match jprop extra "range" with
      | some (.jobj r) =>
          match jGetStr (jlookup r "min"), jGetStr (jlookup r "max") with
          | some mn, some mx => some ⟨mn, mx⟩
          | _, _ => none
      | _ => none
  | none => none

/-- One fetch attempt's observable outcome: a thrown transport-level
failure, or an HTTP response with status, raw body text, and the result
of `JSON.parse` on that text (`none` when the body is not JSON). -/
inductive FetchOutcome where
  | netError (msg : String)
  | httpResp (status : Nat) (rawBody : String) (parsed : Option Json)

inductive ReqError where
  | api (e : MixinRouteAPIErrorM)
  | net (msg : String)

/-- The `response.ok` predicate (status in 200..299). -/
def isSuccessStatus (status : Nat) : Bool := 200 ≤ status && status < 300

/-- The response handling of one attempt inside `doRequest`:
non-ok-or-202 responses become `MixinRouteAPIError`s (typed from the error
envelope when present), ok responses are unwrapped to their `data` field
when the body is an object containing one. -/
def processResponse : FetchOutcome → Except ReqError Json
  | .netError m => .error (.net m)
  | .httpResp status rawBody parsed =>
      if !(isSuccessStatus status) || status == 202 then
        match parsed with
        | some j =>
            match jprop j "error" with
            | some e =>
                if jTruthy e then
                  .error (.api
                    { statusCode := status
                      code := jGetNum (jprop e "code")
                      description := jGetStr (jprop e "description")
                      rawBody := rawBody
                      range := extractRange e })
                else
                  .error (.api
                    { statusCode := status, code := none, description := none
                      rawBody := rawBody, range := none })
            | none =>
                .error (.api
                  { statusCode := status, code := none, description := none
                    rawBody := rawBody, range := none })
        | none =>
            .error (.api
              { statusCode := status, code := none, description := none
                rawBody := rawBody, range := none })
      else
        match parsed with
        | none => .error (.net "invalid json body")
        | some j =>
            match j with
            | .jobj kvs =>
                match jlookup kvs "data" with
                | some d => .ok d
                | none => .ok j
            | _ => .ok j

/-- The 4xx check of the catch block (`MixinRouteAPIError` with a 4xx
status is rethrown immediately; transport-level errors carry no status). -/
def is4xxApiError : ReqError → Bool
  | .api e => 400 ≤ e.statusCode && e.statusCode < 500
  | .net _ => false

structure TransportRun where
  result : Except ReqError Json
  attempts : Nat
  delays : List Nat

/-- The retry loop of `doRequest` over the per-attempt outcomes: a 4xx
`MixinRouteAPIError` is rethrown at once; any other failure waits
`retryDelay` and retries while attempts remain; the last error is thrown
when the loop ends. -/
def doRequestLoop (retryDelay : Nat) : List FetchOutcome → TransportRun
  | [] => ⟨.error (.net "Request failed"), 0, []⟩
  | o :: rest =>
      match processResponse o with
      | .ok v => ⟨.ok v, 1, []⟩
      | .error e =>
          if is4xxApiError e then ⟨.error e, 1, []⟩
          else
            match rest with
            | [] => ⟨.error e, 1, []⟩
            | r :: rs =>
                let t := doRequestLoop retryDelay (r :: rs)
                ⟨t.result, t.attempts + 1, retryDelay :: t.delays⟩

/-- `doRequest` with a configured retry count: attempts are indexed
`0 .. retryCount`, each drawing its outcome from the transcript `fetch`. -/
def doRequest (fetch : Nat → FetchOutcome) (retryCount retryDelay : Nat) :
    TransportRun :=
  doRequestLoop retryDelay ((List.range (retryCount + 1)).map fetch)

/-! ## JavaScript number arithmetic (IEEE-754 binary64) over exact fractions

`parseFloat` and the `*` / `/` operators of the source operate on binary64
doubles. A finite double is an exactly-representable rational; each JS
operation computes the exact rational result and rounds it to the nearest
representable double (ties to even). Fractions are represented as
numerator/denominator pairs (denominator positive), without reduction;
two fractions are equal as numbers iff they cross-multiply equally.
Overflow to infinity is outside the range of every amount handled here
and is not modelled. -/

/-- An exact fraction: `num / den` with `den` a positive natural. -/
structure QR where
  num : Int
  den : Nat
deriving DecidableEq

/-- Numeric equality of fractions (cross multiplication). -/
def QR.eqv (a b : QR) : Prop := a.num * (b.den : Int) = b.num * (a.den : Int)

instance (a b : QR) : Decidable (QR.eqv a b) := by
  unfold QR.eqv
  infer_instance

/-- Tail-recursive floor of the base-2 logarithm (`seqNat` keeps the
accumulator evaluated; it does not change the result). -/
def log2Acc : Nat → Nat → Nat → Nat
  | 0, acc, _ => acc
  | f + 1, acc, n => if n ≤ 1 then acc else seqNat acc (log2Acc f (acc + 1) (n / 2))

/-- Round the exact fraction `q` to the nearest binary64 double (ties to
even), returned as the exact fraction value of that double. The binade is
located with a `2 ^ 1300` scaling (exact for every magnitude down to the
smallest subnormal), the mantissa is the correctly rounded 53-bit integer,
and the result is `mantissa * 2 ^ exponent` with the input's sign. -/
def roundToDouble (q : QR) : QR :=
  if q.num = 0 then ⟨0, 1⟩
  else
    let n := q.num.natAbs
    let d := q.den
    let E : Int := (log2Acc 4000 0 (n * 2 ^ 1300 / d) : Int) - 1300
    let e : Int := max (E - 52) (-1074)
    let n' := if e ≤ 0 then n * 2 ^ (-e).toNat else n
    let d' := if e ≤ 0 then d else d * 2 ^ e.toNat
    let m0 := n' / d'
    let rem := n' % d'
    let m := if 2 * rem < d' then m0
             else if d' < 2 * rem then m0 + 1
             else if m0 % 2 = 0 then m0 else m0 + 1
    let mi : Int := if q.num < 0 then -(m : Int) else (m : Int)
    if e ≤ 0 then ⟨mi, 2 ^ (-e).toNat⟩ else ⟨mi * 2 ^ e.toNat, 1⟩

/-- Exact product of fractions. -/
def qrMulExact (a b : QR) : QR := ⟨a.num * b.num, a.den * b.den⟩

/-- Exact quotient of fractions (the divisors reached in the embedded code
are positive constants). -/
def qrDivExact (a b : QR) : QR :=
  if b.num < 0 then ⟨-(a.num * (b.den : Int)), a.den * b.num.natAbs⟩
  else ⟨a.num * (b.den : Int), a.den * b.num.natAbs⟩

/-- JS `a * b` on doubles. -/
def jsMul (a b : QR) : QR := roundToDouble (qrMulExact a b)

/-- JS `a / b` on doubles. -/
def jsDiv (a b : QR) : QR := roundToDouble (qrDivExact a b)

/-- JS `parseFloat` of a decimal string whose exact value is `q`
(correctly rounded to the nearest double). -/
def parseFloatQ (q : QR) : QR := roundToDouble q

/-- The fraction of a whole number (JS percentages are exact doubles). -/
def qrOfInt (n : Int) : QR := ⟨n, 1⟩

/-! ## Split mode (`SplitSwap.handleCalculateSwap`, one source asset
divided among target assets by integer percentages) -/

/-- A `buyTokens` entry (percentages are whole numbers: the inputs are
`step="1"` fields clamped to `[0, 100]` and the auto-distribution uses
`Math.floor`). -/
structure BuyTokenM where
  assetId : String
  symbol : String
  percentage : Int
  price : QR
deriving DecidableEq

/-- The `swapSummary.totalBuyPercentage` reduction. -/
def splitTotalBuyPercentage (buyTokens : List BuyTokenM) : Int :=
  (buyTokens.map (·.percentage)).foldl (· + ·) 0

/-- An `executeSwap` request as issued by the handlers (the numeric input
amount is stringified with `toString` at the call site). -/
structure SwapReqM where
  inputAssetId : String
  outputAssetId : String
  inputAmount : QR
deriving DecidableEq

/-- Observable result of one run of the split handler. -/
inductive SplitRun where
  | noop
  | rejected
  | executed (requests : List SwapReqM)
deriving DecidableEq

/-- Requests that reach the network in a split run. -/
def SplitRun.networkRequests : SplitRun → List SwapReqM
  | .executed rs => rs
  | _ => []

/-- The split handler `handleCalculateSwap`: guard clauses, the
percentage-sum gate (before any `executeSwap`), then one request per buy
token with input amount `totalSellAmount * percentage / 100` in double
arithmetic. -/
def handleCalculateSwapSplit (hasPrereqs : Bool) (selectedAssetId : Option String)
    (buyTokens : List BuyTokenM) (balanceTotalAmount : Option QR)
    (sellPercentage : Int) : SplitRun :=
  match selectedAssetId with
  | none => .noop
  | some src =>
      if !hasPrereqs || buyTokens.isEmpty then .noop
      else if !(splitTotalBuyPercentage buyTokens == 100) then .rejected
      else
        match balanceTotalAmount with
        | none => .noop
        | some amountStr =>
            let totalAmount := parseFloatQ amountStr
            let totalSellAmount := jsMul totalAmount (jsDiv (qrOfInt sellPercentage) (qrOfInt 100))
            .executed (buyTokens.map (fun bt =>
              { inputAssetId := src
                outputAssetId := bt.assetId
                inputAmount := jsDiv (jsMul totalSellAmount (qrOfInt bt.percentage)) (qrOfInt 100) }))

/-! ## Bulk mode (`BulkSwap.handleCalculateSwap`, many source assets into
one target, orders created concurrently with isolated failures) -/

structure BalanceM where
  symbol : String
  icon : String
  totalAmount : QR
deriving DecidableEq

/-- The fields of an `executeSwap` success used by the handler
(`result.quote.outAmount`, `result.swap.tx`, and the order id and trace
decoded from the payment URI). -/
structure SwapRespM where
  outAmount : String
  tx : String
  txOrderId : String
  txTrace : String
deriving DecidableEq

structure BulkOrderM where
  assetId : String
  symbol : String
  icon : String
  inputAmount : QR
  outputAmount : String
  payUrl : String
  orderId : String
  traceId : String
  isPaid : Bool
deriving DecidableEq

/-- The order record built from a successful creation: `outputAmount` is
the server's `result.quote.outAmount`, taken verbatim. -/
def mkBulkOrder (assetId : String) (b : BalanceM) (inputAmount : QR)
    (r : SwapRespM) : BulkOrderM :=
  { assetId
    symbol := b.symbol
    icon := b.icon
    inputAmount
    outputAmount := r.outAmount
    payUrl := r.tx
    orderId := r.txOrderId
    traceId := r.txTrace
    isPaid := false }

/-- The double-arithmetic input amount `(totalAmount * swapPercentage) / 100`. -/
def bulkInputAmount (totalAmountStr : QR) (swapPercentage : Int) : QR :=
  jsDiv (jsMul (parseFloatQ totalAmountStr) (qrOfInt swapPercentage)) (qrOfInt 100)

/-- One asset's branch of the concurrent `map`: whether `executeSwap` was
invoked, the order produced on success, and whether the branch failed
(each failure is reported by its own toast inside the branch). -/
def bulkStep (balances : String → Option BalanceM) (swapPercentage : Int)
    (outcome : String → Except String SwapRespM) (a : String) :
    Bool × Option BulkOrderM × Bool :=
  match balances a with
  | none => (false, none, false)
  | some b =>
      match outcome a with
      | .ok r =>
          (true, some (mkBulkOrder a b (bulkInputAmount b.totalAmount swapPercentage) r), false)
      | .error _ => (true, none, true)

structure BulkRun where
  calls : List String
  orders : List BulkOrderM
  failures : List String
deriving DecidableEq

/-- The whole bulk handler body: every selected asset with a balance gets
its own creation call; `validOrders` keeps the successes; failed branches
are reported individually. -/
def bulkCreateOrders (assets : List String) (balances : String → Option BalanceM)
    (swapPercentage : Int) (outcome : String → Except String SwapRespM) : BulkRun :=
  { calls := assets.filter (fun a => (bulkStep balances swapPercentage outcome a).1)
    orders := assets.filterMap (fun a => (bulkStep balances swapPercentage outcome a).2.1)
    failures := assets.filter (fun a => (bulkStep balances swapPercentage outcome a).2.2) }

/-! ## Payment polling (`checkPaymentStatus` in the bulk component) -/

/-- Outcome of one `utxo.fetchTransaction(traceId)` call: a transaction,
a null result, an HTTP error with a status (`error.response.status`), or
any other thrown error. -/
inductive TxFetchOutcome where
  | okTx (state : String)
  | okNull
  | httpFail (status : Nat)
  | otherFail (msg : String)
deriving DecidableEq

/-- Observable effects of one `checkPaymentStatus` run. -/
structure PollStep where
  markPaid : Bool
  logged : Bool
  surfaced : Bool
  keepPolling : Bool
deriving DecidableEq

/-- The body of `checkPaymentStatus`: re-entrancy and already-paid guards;
a `spent` transaction marks the order paid; a 404 is silently ignored;
any other error is logged; the function always returns normally so the
interval keeps firing. -/
def checkPaymentStatus (alreadyPolling isPaid : Bool) (o : TxFetchOutcome) :
    PollStep :=
  if alreadyPolling || isPaid then ⟨false, false, false, true⟩
  else
    match o with
    | .okTx st => ⟨st == "spent", false, false, true⟩
    | .okNull => ⟨false, false, false, true⟩
    | .httpFail status => ⟨false, !(status == 404), false, true⟩
    | .otherFail _ => ⟨false, true, false, true⟩

/-- The 5-second interval drives one check per tick; no tick's outcome can
cancel the interval (only the effect cleanup does). -/
def runPollTicks (ticks : List TxFetchOutcome) : List PollStep :=
  ticks.map (checkPaymentStatus false false)

/-! ## Key caches: module-global public-key cache versus per-instance state -/

/-- The module-scope `let cachedRouteBotPublicKey` of mixin-route-client.ts:
one mutable cell per process, shared by every `Web3Client` instance. -/
structure RouteClientModuleState where
  cachedRouteBotPublicKey : Option (List Nat)
deriving DecidableEq

/-- Result of one `fetchUserSession` call: the updated module state, the
returned key bytes, and whether the network was consulted. -/
structure FetchSessionResult where
  newState : RouteClientModuleState
  returnedKey : List Nat
  networkCalled : Bool
deriving DecidableEq

/-- The `fetchUserSession` of the source: return the module-cached key
when present (no network call); otherwise fetch, cache, return. -/
def fetchUserSession (st : RouteClientModuleState) (networkKey : List Nat) :
    FetchSessionResult :=
  match st.cachedRouteBotPublicKey with
  | some k => ⟨st, k, false⟩
  | none => ⟨⟨some networkKey⟩, networkKey, true⟩

/-- Per-instance `Web3Client` state: the constructor sets
`sharedKeyPromise = null` and does not touch the module cache. -/
structure Web3ClientState where
  sharedKeyPromise : Option (List Nat)
deriving DecidableEq

def mkWeb3Client : Web3ClientState := ⟨none⟩

/-- Per-instance `RouteAPISigner` state: the `sharedKeyCache` Map. -/
structure RouteAPISignerState where
  sharedKeyCache : List (String × List Nat)
deriving DecidableEq

def mkRouteAPISigner : RouteAPISignerState := ⟨[]⟩

/-- The signer's `getSharedKey`: consult the instance map, else derive and
store under the counterparty id. -/
def signerGetSharedKey (st : RouteAPISignerState) (botUserId : String)
    (derivedKey : List Nat) : RouteAPISignerState × List Nat × Bool :=
  match (st.sharedKeyCache.find? (fun kv => kv.1 == botUserId)).map (·.2) with
  | some k => (st, k, false)
  | none => (⟨(botUserId, derivedKey) :: st.sharedKeyCache⟩, derivedKey, true)

/-- Decidable equality for derivation results. -/
instance exceptBytesDecEq : DecidableEq (Except String (List Nat)) := fun x y =>
  match x, y with
  | .ok a, .ok b =>
      if h : a = b then .isTrue (by rw [h]) else .isFalse (by simp [h])
  | .error a, .error b =>
      if h : a = b then .isTrue (by rw [h]) else .isFalse (by simp [h])
  | .ok _, .error _ => .isFalse (by simp)
  | .error _, .ok _ => .isFalse (by simp)

/-- `doRequest` including the signature computation that precedes the
retry loop in the source: a failed `signRequest` propagates before any
fetch attempt is made. -/
def doRequestWithSigning (signResult : Except String (List Nat))
    (fetch : Nat → FetchOutcome) (retryCount retryDelay : Nat) : TransportRun :=
  match signResult with
  | .error m => ⟨.error (.net m), 0, []⟩
  | .ok _ => doRequest fetch retryCount retryDelay

/-- A sample 32-byte local Ed25519 seed. -/
def sampleSeed : List Nat := List.replicate 32 1

/-- A sample 32-byte remote public key: the canonical encoding of the
Ed25519 base point (Edwards y-coordinate 4/5, whose Montgomery
u-coordinate is 9). -/
def sampleRemoteKey : List Nat := 0x58 :: List.replicate 31 0x66

/-- A fetch transcript: three 5xx responses, then a success envelope. -/
def fetch5xxThen200 : Nat → FetchOutcome := fun i =>
  if i < 3 then .httpResp 500 "server error" none
  else .httpResp 200 "" (some (.jobj [("data", .jstr "payload")]))

/-! ## Supporting lemmas -/

theorem char_toNat_lt (c : Char) : c.toNat < 1114112 := by
  have hv := c.valid
  unfold UInt32.isValidChar Nat.isValidChar at hv
  simp [Char.toNat] at *
  omega

theorem utf8Char_lt (c : Char) : ∀ b ∈ utf8Char c, b < 256 := by
  have h := char_toNat_lt c
  intro b hb
  unfold utf8Char at hb
  simp only at hb
  split_ifs at hb <;> simp at hb <;> omega

theorem utf8Bytes_lt (s : String) : ∀ b ∈ utf8Bytes s, b < 256 := by
  intro b hb
  unfold utf8Bytes at hb
  simp [List.mem_flatMap] at hb
  obtain ⟨c, _, hc⟩ := hb
  exact utf8Char_lt c b hc

theorem decodeB64Char_encodeB64Char : ∀ n : Fin 64,
    decodeB64Char (encodeB64Char n.val) = n.val := by decide

theorem decB64_encB64 (n : Nat) (h : n < 64) :
    decodeB64Char (encodeB64Char n) = n :=
  decodeB64Char_encodeB64Char ⟨n, h⟩

/-- Decoding is a left inverse of encoding on byte lists. -/
theorem base64_roundtrip : ∀ (l : List Nat), (∀ b ∈ l, b < 256) →
    base64URLDecode (base64URLEncode l) = l
  | [], _ => rfl
  | [a], h => by
    have ha : a < 256 := h a (by simp)
    simp only [base64URLEncode, base64URLDecode]
    rw [decB64_encB64 _ (by omega), decB64_encB64 _ (by omega)]
    congr 1
    omega
  | [a, b], h => by
    have ha : a < 256 := h a (by simp)
    have hb : b < 256 := h b (by simp)
    simp only [base64URLEncode, base64URLDecode]
    rw [decB64_encB64 _ (by omega), decB64_encB64 _ (by omega),
        decB64_encB64 _ (by omega)]
    congr 1
    · omega
    · congr 1
      omega
  | a :: b :: c :: rest, h => by
    have ha : a < 256 := h a (by simp)
    have hb : b < 256 := h b (by simp)
    have hc : c < 256 := h c (by simp)
    have hrest : ∀ x ∈ rest, x < 256 := fun x hx => h x (by simp [hx])
    simp only [base64URLEncode, base64URLDecode]
    rw [decB64_encB64 _ (by omega), decB64_encB64 _ (by omega),
        decB64_encB64 _ (by omega), decB64_encB64 _ (by omega)]
    rw [base64_roundtrip rest hrest]
    congr 1
    · omega
    · congr 1
      · omega
      · congr 1
        omega

theorem natToBytesBE_length (k x : Nat) : (natToBytesBE k x).length = k := by
  simp [natToBytesBE]

theorem natToBytesBE_lt (k x : Nat) : ∀ b ∈ natToBytesBE k x, b < 256 := by
  intro b hb
  simp [natToBytesBE] at hb
  obtain ⟨i, _, hi⟩ := hb
  omega

theorem sha256Bytes_length (msg : List Nat) : (sha256Bytes msg).length = 32 := by
  unfold sha256Bytes
  simp [natToBytesBE_length]

theorem sha256Bytes_lt (msg : List Nat) : ∀ b ∈ sha256Bytes msg, b < 256 := by
  intro b hb
  unfold sha256Bytes at hb
  simp only [List.mem_append] at hb
  rcases hb with ((((((h | h) | h) | h) | h) | h) | h) | h <;>
    exact natToBytesBE_lt _ _ b h

theorem hmacSha256_length (key msg : List Nat) :
    (hmacSha256 key msg).length = 32 := by
  unfold hmacSha256
  exact sha256Bytes_length _

theorem hmacSha256_lt (key msg : List Nat) : ∀ b ∈ hmacSha256 key msg, b < 256 := by
  unfold hmacSha256
  exact sha256Bytes_lt _

theorem sha512Bytes_length (msg : List Nat) : (sha512Bytes msg).length = 64 := by
  unfold sha512Bytes
  simp [natToBytesBE_length]

theorem sha512Bytes_lt (msg : List Nat) : ∀ b ∈ sha512Bytes msg, b < 256 := by
  intro b hb
  unfold sha512Bytes at hb
  simp only [List.mem_append] at hb
  rcases hb with ((((((h | h) | h) | h) | h) | h) | h) | h <;>
    exact natToBytesBE_lt _ _ b h

theorem seqNat_eq {α : Sort u} (n : Nat) (f : α) : seqNat n f = f := by
  cases n <;> rfl

theorem encodeLE32_length (x : Nat) : (encodeLE32 x).length = 32 := by
  simp [encodeLE32]

theorem encodeLE32_lt (x : Nat) : ∀ b ∈ encodeLE32 x, b < 256 := by
  intro b hb
  simp [encodeLE32] at hb
  obtain ⟨i, _, hi⟩ := hb
  omega

theorem ed25519PrivateToCurve25519_length (priv : List Nat) :
    (ed25519PrivateToCurve25519 priv).length = 32 := by
  unfold ed25519PrivateToCurve25519
  simp [List.length_take, sha512Bytes_length]

/-- Bit-level consequences of the clamp, checked over all byte values. -/
theorem clampBits : ∀ b : Fin 256,
    (b.val &&& 248) % 8 = 0 ∧ 64 ≤ ((b.val &&& 127) ||| 64) ∧
    ((b.val &&& 127) ||| 64) < 128 := by decide

theorem sha512_take32_length (msg : List Nat) :
    ((sha512Bytes msg).take 32).length = 32 := by
  simp [List.length_take, sha512Bytes_length]

theorem getD_set_same (l : List Nat) (i x : Nat) (h : i < l.length) :
    (l.set i x).getD i 0 = x := by
  simp [List.getD, List.getElem?_set_self', List.getElem?_eq_getElem, h]

theorem getD_set_other (l : List Nat) (i j x : Nat) (hne : i ≠ j) :
    (l.set i x).getD j 0 = l.getD j 0 := by
  simp [List.getD, List.getElem?_set_ne hne]

theorem getD_mem (l : List Nat) (i : Nat) (h : i < l.length) :
    l.getD i 0 ∈ l := by
  simp [List.getD, List.getElem?_eq_getElem, h]

/-- The first byte of the derived scalar is a multiple of 8 and the last
byte lies in `[64, 128)`: the standard Curve25519 clamp is in force. -/
theorem ed25519PrivateToCurve25519_clamped (priv : List Nat) :
    (ed25519PrivateToCurve25519 priv).getD 0 0 % 8 = 0 ∧
    64 ≤ (ed25519PrivateToCurve25519 priv).getD 31 0 ∧
    (ed25519PrivateToCurve25519 priv).getD 31 0 < 128 := by
  unfold ed25519PrivateToCurve25519
  have hlen : ((sha512Bytes (priv.take 32)).take 32).length = 32 :=
    sha512_take32_length _
  set d := (sha512Bytes (priv.take 32)).take 32 with hd
  have hlt0 : d.getD 0 0 < 256 :=
    sha512Bytes_lt (priv.take 32) _
      (List.mem_of_mem_take (getD_mem d 0 (by omega)))
  have hlt31 : d.getD 31 0 < 256 :=
    sha512Bytes_lt (priv.take 32) _
      (List.mem_of_mem_take (getD_mem d 31 (by omega)))
  have e0 : ((d.set 0 (d.getD 0 0 &&& 248)).set 31
      ((d.getD 31 0 &&& 127) ||| 64)).getD 0 0 = d.getD 0 0 &&& 248 := by
    rw [getD_set_other _ _ _ _ (by omega), getD_set_same _ _ _ (by omega)]
  have e31 : ((d.set 0 (d.getD 0 0 &&& 248)).set 31
      ((d.getD 31 0 &&& 127) ||| 64)).getD 31 0 = (d.getD 31 0 &&& 127) ||| 64 := by
    rw [getD_set_same]
    simp [hlen]
  refine ⟨?_, ?_, ?_⟩
  · rw [e0]; exact (clampBits ⟨d.getD 0 0, hlt0⟩).1
  · rw [e31]; exact (clampBits ⟨d.getD 31 0, hlt31⟩).2.1
  · rw [e31]; exact (clampBits ⟨d.getD 31 0, hlt31⟩).2.2

theorem doRequestLoop_attempts_le (d : Nat) :
    ∀ l : List FetchOutcome, (doRequestLoop d l).attempts ≤ l.length
  | [] => by simp [doRequestLoop]
  | o :: rest => by
      unfold doRequestLoop
      cases processResponse o with
      | ok v => simp
      | error e =>
          simp only
          split
          · simp
          · match rest with
            | [] => simp
            | r :: rs =>
                have ih := doRequestLoop_attempts_le d (r :: rs)
                simp only [List.length_cons] at *
                omega

theorem doRequestLoop_attempts_pos (d : Nat) (o : FetchOutcome)
    (rest : List FetchOutcome) : 1 ≤ (doRequestLoop d (o :: rest)).attempts := by
  unfold doRequestLoop
  cases processResponse o with
  | ok v => simp
  | error e =>
      simp only
      split
      · simp
      · match rest with
        | [] => simp
        | r :: rs => simp

theorem doRequestLoop_delays_flat (d : Nat) :
    ∀ l : List FetchOutcome,
      (doRequestLoop d l).delays =
        List.replicate ((doRequestLoop d l).attempts - 1) d
  | [] => by simp [doRequestLoop]
  | o :: rest => by
      unfold doRequestLoop
      cases processResponse o with
      | ok v => simp
      | error e =>
          simp only
          split
          · simp
          · match rest with
            | [] => simp
            | r :: rs =>
                have ih := doRequestLoop_delays_flat d (r :: rs)
                have hpos := doRequestLoop_attempts_pos d r rs
                simp only [ih, Nat.add_sub_cancel]
                rw [show (doRequestLoop d (r :: rs)).attempts =
                    ((doRequestLoop d (r :: rs)).attempts - 1) + 1 by omega,
                  List.replicate_succ]
                simp

theorem x25519GetSharedSecret_ok_length (sc pub : List Nat) (s : List Nat)
    (h : x25519GetSharedSecret sc pub = .ok s) : s.length = 32 := by
  unfold x25519GetSharedSecret at h
  split_ifs at h
  replace h : (if montgomeryLadder (decodeUCoordinate pub)
        (decodeLE (clampScalarBytes sc)) = 0
      then (Except.error "invalid private or public key received" :
        Except String (List Nat))
      else Except.ok (encodeLE32 (montgomeryLadder (decodeUCoordinate pub)
        (decodeLE (clampScalarBytes sc))))) = Except.ok s := h
  rcases eq_or_ne
      (montgomeryLadder (decodeUCoordinate pub) (decodeLE (clampScalarBytes sc))) 0
    with h0 | h0
  · rw [if_pos h0] at h
    exact absurd h (by simp)
  · rw [if_neg h0] at h
    cases h
    exact encodeLE32_length _

theorem take_all_of_length (l : List Nat) (n : Nat) (h : l.length = n) :
    l.take n = l := by
  rw [← h]
  exact List.take_length l

theorem processResponse_4xx (status : Nat) (rawBody : String) (parsed : Option Json)
    (h4 : 400 ≤ status) :
    ∃ e, processResponse (.httpResp status rawBody parsed) = .error (.api e) ∧
      e.statusCode = status ∧ e.rawBody = rawBody := by
  have hs : isSuccessStatus status = false := by
    simp [isSuccessStatus]
    omega
  simp only [processResponse, hs, Bool.not_false, Bool.true_or, if_true]
  match parsed with
  | none => exact ⟨_, rfl, rfl, rfl⟩
  | some j =>
      simp only
      match hj : jprop j "error" with
      | none => exact ⟨_, rfl, rfl, rfl⟩
      | some e =>
          simp only
          split
          · exact ⟨_, rfl, rfl, rfl⟩
          · exact ⟨_, rfl, rfl, rfl⟩

/-! ## Claims -/

/-- C1 counterexample: at a concrete 32-byte seed and a concrete 32-byte
remote Ed25519 public point (the base point), the code's shared-secret
derivation `generateSharedKey` differs from the pipeline the claim
describes (`deriveSharedSecretSpec`, which converts the remote Edwards
point to its Montgomery-form X-coordinate before the X25519 scalar
multiplication): the code feeds the decoded remote key bytes to X25519
directly, without the Edwards-to-Montgomery conversion. -/
theorem C1_counterexample :
    sampleSeed.length = 32 ∧ sampleRemoteKey.length = 32 ∧
    generateSharedKey sampleSeed sampleRemoteKey ≠
      deriveSharedSecretSpec sampleSeed sampleRemoteKey := by
  refine ⟨by decide, by decide, ?_⟩
  decide

/-- C1 amended: for every 32-byte local Ed25519 seed and 32-byte remote
public key, the shared-secret derivation computes the Montgomery-form
private scalar as the first 32 bytes of SHA-512 of the seed with the
standard Curve25519 clamp applied (bits 0-2 of the first byte cleared,
bit 7 of the last byte cleared, bit 6 of the last byte set), uses the
decoded remote public-key bytes directly as the X25519 public value (no
Edwards-to-Montgomery conversion of the remote point), and returns the
32-byte X25519 scalar multiplication of the two. -/
theorem C1_amended (seed pub : List Nat) (hseed : seed.length = 32)
    (_hpub : pub.length = 32) :
    generateSharedKey seed pub =
      x25519GetSharedSecret (ed25519PrivateToCurve25519 seed) pub ∧
    (let d := (sha512Bytes seed).take 32
     ed25519PrivateToCurve25519 seed =
       (d.set 0 (d.getD 0 0 &&& 248)).set 31 ((d.getD 31 0 &&& 127) ||| 64)) ∧
    (ed25519PrivateToCurve25519 seed).getD 0 0 % 8 = 0 ∧
    64 ≤ (ed25519PrivateToCurve25519 seed).getD 31 0 ∧
    (ed25519PrivateToCurve25519 seed).getD 31 0 < 128 ∧
    (∀ s, generateSharedKey seed pub = .ok s → s.length = 32) := by
  obtain ⟨hc0, hc1, hc2⟩ := ed25519PrivateToCurve25519_clamped seed
  refine ⟨rfl, ?_, hc0, hc1, hc2, ?_⟩
  · show ed25519PrivateToCurve25519 seed = _
    unfold ed25519PrivateToCurve25519
    rw [take_all_of_length seed 32 hseed]
  · intro s hs
    exact x25519GetSharedSecret_ok_length _ _ _ hs

/-- C1 witness: the amended statement instantiated at the sample seed and
the base-point public key. -/
theorem C1_amended_witness :
    sampleSeed.length = 32 ∧ sampleRemoteKey.length = 32 ∧
    (generateSharedKey sampleSeed sampleRemoteKey =
      x25519GetSharedSecret (ed25519PrivateToCurve25519 sampleSeed) sampleRemoteKey ∧
    (let d := (sha512Bytes sampleSeed).take 32
     ed25519PrivateToCurve25519 sampleSeed =
       (d.set 0 (d.getD 0 0 &&& 248)).set 31 ((d.getD 31 0 &&& 127) ||| 64)) ∧
    (ed25519PrivateToCurve25519 sampleSeed).getD 0 0 % 8 = 0 ∧
    64 ≤ (ed25519PrivateToCurve25519 sampleSeed).getD 31 0 ∧
    (ed25519PrivateToCurve25519 sampleSeed).getD 31 0 < 128 ∧
    (∀ s, generateSharedKey sampleSeed sampleRemoteKey = .ok s → s.length = 32)) :=
  ⟨by decide, by decide, C1_amended sampleSeed sampleRemoteKey (by decide) (by decide)⟩

/-- C2: for every signed request, the HMAC-SHA256 input is exactly the
decimal timestamp, then the uppercased method, then the uri, then the raw
body; the signature is the unpadded URL-safe base64 encoding of the app
id's UTF-8 bytes followed by the raw 32-byte HMAC digest; decoding the
signature therefore yields exactly the byte length of the principal id
plus 32. -/
theorem C2_signaturePipeline (sharedKey : List Nat) (appId method uri body : String)
    (timestamp : Nat) :
    signRequest sharedKey appId method uri body timestamp =
      String.mk (base64URLEncode (utf8Bytes appId ++
        hmacSha256 sharedKey
          (utf8Bytes (toString timestamp ++ method.toUpper ++ uri ++ body)))) ∧
    base64URLDecode (signRequest sharedKey appId method uri body timestamp).data =
      utf8Bytes appId ++
        hmacSha256 sharedKey
          (utf8Bytes (toString timestamp ++ method.toUpper ++ uri ++ body)) ∧
    (base64URLDecode (signRequest sharedKey appId method uri body timestamp).data).length =
      (utf8Bytes appId).length + 32 := by
  have hlt : ∀ b ∈ utf8Bytes appId ++
      hmacSha256 sharedKey
        (utf8Bytes (toString timestamp ++ method.toUpper ++ uri ++ body)), b < 256 := by
    intro b hb
    rcases List.mem_append.mp hb with h | h
    · exact utf8Bytes_lt _ b h
    · exact hmacSha256_lt _ _ b h
  have hrt : base64URLDecode (signRequest sharedKey appId method uri body timestamp).data =
      utf8Bytes appId ++
        hmacSha256 sharedKey
          (utf8Bytes (toString timestamp ++ method.toUpper ++ uri ++ body)) := by
    show base64URLDecode (base64URLEncode _) = _
    exact base64_roundtrip _ hlt
  refine ⟨rfl, hrt, ?_⟩
  rw [hrt]
  simp [List.length_append, hmacSha256_length]

/-- C3 counterexample: an HTTP 202 response is neither a transport-level
failure nor a 5xx response, yet the transport treats it as an error and
retries it: on a transcript of 202 responses with retryCount 1 the
request is attempted twice, refuting the claim that only transport-level
failures and 5xx responses are retried. -/
theorem C3_counterexample :
    processResponse (.httpResp 202 "accepted" none) =
      .error (.api ⟨202, none, none, "accepted", none⟩) ∧
    ¬ 500 ≤ 202 ∧
    doRequest (fun _ => .httpResp 202 "accepted" none) 1 1000 =
      ⟨.error (.api ⟨202, none, none, "accepted", none⟩), 2, [1000]⟩ := by
  refine ⟨rfl, by omega, rfl⟩

/-- C3 amended: the transport retries transport-level failures and every
error response that is not a 4xx `MixinRouteAPIError` (5xx, and HTTP 202
which the transport treats as an error), with a flat `retryDelay` between
attempts, and makes at most `retryCount + 1` attempts; a 4xx
`MixinRouteAPIError` is returned at once after a single attempt; with
retryCount 3 against three 5xx responses followed by a 2xx the success
payload is returned on the fourth attempt, and with retryCount 1 the same
transcript fails after exactly two attempts. -/
theorem C3_retryPolicy :
    (∀ (fetch : Nat → FetchOutcome) (r d : Nat),
        (doRequest fetch r d).attempts ≤ r + 1 ∧
        (doRequest fetch r d).delays =
          List.replicate ((doRequest fetch r d).attempts - 1) d) ∧
    (∀ (fetch : Nat → FetchOutcome) (r d status : Nat) (rawBody : String)
        (parsed : Option Json),
        fetch 0 = .httpResp status rawBody parsed → 400 ≤ status → status < 500 →
        ∃ e, processResponse (fetch 0) = .error (.api e) ∧ e.statusCode = status ∧
          doRequest fetch r d = ⟨.error (.api e), 1, []⟩) ∧
    (∀ (fetch : Nat → FetchOutcome) (r d : Nat) (e : ReqError), 1 ≤ r →
        processResponse (fetch 0) = .error e → is4xxApiError e = false →
        2 ≤ (doRequest fetch r d).attempts) ∧
    doRequest fetch5xxThen200 3 1000 = ⟨.ok (.jstr "payload"), 4, [1000, 1000, 1000]⟩ ∧
    doRequest fetch5xxThen200 1 1000 =
      ⟨.error (.api ⟨500, none, none, "server error", none⟩), 2, [1000]⟩ := by
  refine ⟨?_, ?_, ?_, rfl, rfl⟩
  · intro fetch r d
    constructor
    · have h := doRequestLoop_attempts_le d ((List.range (r + 1)).map fetch)
      simpa [doRequest] using h
    · exact doRequestLoop_delays_flat d _
  · intro fetch r d status rawBody parsed hf h4 h5
    obtain ⟨e, he, hsc, hrb⟩ := processResponse_4xx status rawBody parsed h4
    rw [← hf] at he
    refine ⟨e, he, hsc, ?_⟩
    have h4xx : is4xxApiError (.api e) = true := by
      simp [is4xxApiError, hsc]
      omega
    unfold doRequest
    rw [List.range_succ_eq_map, List.map_cons]
    unfold doRequestLoop
    rw [he]
    simp [h4xx]
  · intro fetch r d e hr he h4
    have hgen : ∀ (o : FetchOutcome) (rest : List FetchOutcome), rest ≠ [] →
        processResponse o = .error e →
        2 ≤ (doRequestLoop d (o :: rest)).attempts := by
      intro o rest hne ho
      unfold doRequestLoop
      rw [ho]
      simp only [h4, Bool.false_eq_true, if_false]
      match rest with
      | [] => exact absurd rfl hne
      | rr :: rs =>
          have := doRequestLoop_attempts_pos d rr rs
          simp only
          omega
    unfold doRequest
    rw [List.range_succ_eq_map, List.map_cons]
    apply hgen _ _ ?_ he
    have : (List.range r) ≠ [] := by
      simp [List.range_eq_nil]
      omega
    simp [this]

/-- C3 witness: the 4xx part of the policy instantiated at a transcript
whose first response is a 404 error envelope, with retryCount 5. -/
theorem C3_retryPolicy_witness :
    ((fun _ => FetchOutcome.httpResp 404 "not found" none) 0 : FetchOutcome) =
      .httpResp 404 "not found" none ∧ 400 ≤ 404 ∧ 404 < 500 ∧
    ∃ e, processResponse ((fun _ => FetchOutcome.httpResp 404 "not found" none) 0) =
        .error (.api e) ∧ e.statusCode = 404 ∧
      doRequest (fun _ => FetchOutcome.httpResp 404 "not found" none) 5 1000 =
        ⟨.error (.api e), 1, []⟩ :=
  ⟨rfl, by omega, by omega,
    C3_retryPolicy.2.1 (fun _ => FetchOutcome.httpResp 404 "not found" none)
      5 1000 404 "not found" none rfl (by omega) (by omega)⟩

/-- C4: a successful response that is an envelope with a `data` field has
that field alone returned; any non-2xx or 202 response is surfaced as a
typed error carrying the status and raw body, and when the body is the
error envelope, its code, description, and optional range are carried in
the typed error — the raw body is never returned as the payload. -/
theorem C4_responseEnvelope :
    (∀ (status : Nat) (rawBody : String) (kvs : List (String × Json)) (d : Json),
        isSuccessStatus status = true → status ≠ 202 → jlookup kvs "data" = some d →
        processResponse (.httpResp status rawBody (some (.jobj kvs))) = .ok d) ∧
    (∀ (status : Nat) (rawBody : String) (parsed : Option Json),
        isSuccessStatus status = false ∨ status = 202 →
        ∃ e, processResponse (.httpResp status rawBody parsed) = .error (.api e) ∧
          e.statusCode = status ∧ e.rawBody = rawBody) ∧
    (∀ (status : Nat) (rawBody mn mx descr : String) (c : Int),
        isSuccessStatus status = false ∨ status = 202 →
        processResponse (.httpResp status rawBody (some (.jobj [("error", .jobj
          [("code", .jnum c), ("description", .jstr descr),
           ("extra", .jobj [("range", .jobj
             [("min", .jstr mn), ("max", .jstr mx)])])])]))) =
        .error (.api ⟨status, some c, some descr, rawBody, some ⟨mn, mx⟩⟩)) := by
  have hcond : ∀ status : Nat, isSuccessStatus status = false ∨ status = 202 →
      (!(isSuccessStatus status) || status == 202) = true := by
    intro status h
    rcases h with h | h
    · simp [h]
    · simp [h]
  refine ⟨?_, ?_, ?_⟩
  · intro status rawBody kvs d hok h202 hdata
    have hcond2 : (!(isSuccessStatus status) || status == 202) = false := by
      simp [hok]
      omega
    simp only [processResponse, hcond2, Bool.false_eq_true, if_false]
    simp [hdata]
  · intro status rawBody parsed h
    simp only [processResponse, hcond status h, if_true]
    match parsed with
    | none => exact ⟨_, rfl, rfl, rfl⟩
    | some j =>
        simp only
        match hj : jprop j "error" with
        | none => exact ⟨_, rfl, rfl, rfl⟩
        | some e =>
            simp only
            split
            · exact ⟨_, rfl, rfl, rfl⟩
            · exact ⟨_, rfl, rfl, rfl⟩
  · intro status rawBody mn mx descr c h
    simp only [processResponse, hcond status h, if_true]
    simp [jprop, jlookup, jTruthy, extractRange, jGetNum, jGetStr]

/-- C4 witness: the three parts instantiated at a 200 data envelope, a
500 response with a non-JSON body, and a 400 amount-out-of-range error
envelope. -/
theorem C4_responseEnvelope_witness :
    (isSuccessStatus 200 = true ∧ (200 : Nat) ≠ 202 ∧
      jlookup [("data", Json.jstr "tokens")] "data" = some (.jstr "tokens") ∧
      processResponse (.httpResp 200 "raw" (some (.jobj [("data", .jstr "tokens")]))) =
        .ok (.jstr "tokens")) ∧
    ((isSuccessStatus 500 = false ∨ (500 : Nat) = 202) ∧
      ∃ e, processResponse (.httpResp 500 "oops" none) = .error (.api e) ∧
        e.statusCode = 500 ∧ e.rawBody = "oops") ∧
    ((isSuccessStatus 400 = false ∨ (400 : Nat) = 202) ∧
      processResponse (.httpResp 400 "body" (some (.jobj [("error", .jobj
        [("code", .jnum 10614), ("description", .jstr "amount out of range"),
         ("extra", .jobj [("range", .jobj
           [("min", .jstr "0.1"), ("max", .jstr "500")])])])]))) =
      .error (.api ⟨400, some 10614, some "amount out of range", "body",
        some ⟨"0.1", "500"⟩⟩)) :=
  ⟨⟨rfl, by omega, rfl,
      C4_responseEnvelope.1 200 "raw" [("data", .jstr "tokens")] (.jstr "tokens")
        rfl (by omega) rfl⟩,
   ⟨Or.inl rfl, C4_responseEnvelope.2.1 500 "oops" none (Or.inl rfl)⟩,
   ⟨Or.inl rfl,
      C4_responseEnvelope.2.2 400 "body" "0.1" "500" "amount out of range" 10614
        (Or.inl rfl)⟩⟩

/-- C5: in split mode, a percentage set not summing to exactly 100 yields
no network request and never an executed run; when the other guards pass
it is reported as a client-side rejection; and an executed run implies
the percentages summed to exactly 100. -/
theorem C5_splitGate :
    (∀ (hasPrereqs : Bool) (sel : Option String) (buyTokens : List BuyTokenM)
        (bal : Option QR) (sellPct : Int),
        splitTotalBuyPercentage buyTokens ≠ 100 →
        (handleCalculateSwapSplit hasPrereqs sel buyTokens bal sellPct).networkRequests
          = [] ∧
        ∀ reqs, handleCalculateSwapSplit hasPrereqs sel buyTokens bal sellPct ≠
          .executed reqs) ∧
    (∀ (src : String) (buyTokens : List BuyTokenM) (bal : Option QR) (sellPct : Int),
        buyTokens ≠ [] → splitTotalBuyPercentage buyTokens ≠ 100 →
        handleCalculateSwapSplit true (some src) buyTokens bal sellPct = .rejected) ∧
    (∀ (hasPrereqs : Bool) (sel : Option String) (buyTokens : List BuyTokenM)
        (bal : Option QR) (sellPct : Int) (reqs : List SwapReqM),
        handleCalculateSwapSplit hasPrereqs sel buyTokens bal sellPct = .executed reqs →
        splitTotalBuyPercentage buyTokens = 100) := by
  have hrej : ∀ (src : String) (buyTokens : List BuyTokenM) (bal : Option QR)
      (sellPct : Int), buyTokens ≠ [] → splitTotalBuyPercentage buyTokens ≠ 100 →
      handleCalculateSwapSplit true (some src) buyTokens bal sellPct = .rejected := by
    intro src buyTokens bal sellPct hne hsum
    unfold handleCalculateSwapSplit
    have h1 : buyTokens.isEmpty = false := by
      simp [List.isEmpty_iff, hne]
    have h2 : (splitTotalBuyPercentage buyTokens == 100) = false := by
      simp [hsum]
    simp [h1, h2]
  have hnotexec : ∀ (hasPrereqs : Bool) (sel : Option String)
      (buyTokens : List BuyTokenM) (bal : Option QR) (sellPct : Int),
      splitTotalBuyPercentage buyTokens ≠ 100 →
      ∀ reqs, handleCalculateSwapSplit hasPrereqs sel buyTokens bal sellPct ≠
        .executed reqs := by
    intro hasPrereqs sel buyTokens bal sellPct hsum reqs hex
    unfold handleCalculateSwapSplit at hex
    have h2 : (splitTotalBuyPercentage buyTokens == 100) = false := by
      simp [hsum]
    match sel with
    | none => cases hex
    | some src =>
        simp only [h2, Bool.not_false, if_true] at hex
        split at hex <;> cases hex
  refine ⟨?_, hrej, ?_⟩
  · intro hasPrereqs sel buyTokens bal sellPct hsum
    refine ⟨?_, hnotexec hasPrereqs sel buyTokens bal sellPct hsum⟩
    rcases hrun : handleCalculateSwapSplit hasPrereqs sel buyTokens bal sellPct with
      _ | _ | reqs
    · rfl
    · rfl
    · exact absurd hrun (hnotexec hasPrereqs sel buyTokens bal sellPct hsum reqs)
  · intro hasPrereqs sel buyTokens bal sellPct reqs hex
    by_contra hsum
    exact hnotexec hasPrereqs sel buyTokens bal sellPct hsum reqs hex

/-- C5 witness: a split with percentages 40 and 30 (sum 70) and every
other precondition satisfied yields no request and a rejection, and an
executed run at a valid 60/40 allocation confirms the sum was 100. -/
theorem C5_splitGate_witness :
    splitTotalBuyPercentage
      [⟨"t1", "A", 40, ⟨1, 1⟩⟩, ⟨"t2", "B", 30, ⟨1, 1⟩⟩] ≠ 100 ∧
    (handleCalculateSwapSplit true (some "src")
      [⟨"t1", "A", 40, ⟨1, 1⟩⟩, ⟨"t2", "B", 30, ⟨1, 1⟩⟩]
      (some ⟨1, 10⟩) 100).networkRequests = [] ∧
    handleCalculateSwapSplit true (some "src")
      [⟨"t1", "A", 40, ⟨1, 1⟩⟩, ⟨"t2", "B", 30, ⟨1, 1⟩⟩]
      (some ⟨1, 10⟩) 100 = .rejected :=
  ⟨by decide,
   (C5_splitGate.1 true (some "src")
      [⟨"t1", "A", 40, ⟨1, 1⟩⟩, ⟨"t2", "B", 30, ⟨1, 1⟩⟩]
      (some ⟨1, 10⟩) 100 (by decide)).1,
   C5_splitGate.2.1 "src"
      [⟨"t1", "A", 40, ⟨1, 1⟩⟩, ⟨"t2", "B", 30, ⟨1, 1⟩⟩]
      (some ⟨1, 10⟩) 100 (by decide) (by decide)⟩

theorem bulkStep_called (balances : String → Option BalanceM) (pct : Int)
    (outcome : String → Except String SwapRespM) (a : String) :
    (bulkStep balances pct outcome a).1 = (balances a).isSome := by
  unfold bulkStep
  match balances a with
  | none => rfl
  | some b =>
      match outcome a with
      | .ok r => rfl
      | .error m => rfl

/-- C6: in bulk mode every selected asset with a balance gets exactly its
own creation call, no matter how the other creations turn out; a
successful creation's order is collected even when other assets fail; and
every failed creation is reported individually. -/
theorem C6_bulkIsolation :
    (∀ (assets : List String) (balances : String → Option BalanceM) (pct : Int)
        (o1 o2 : String → Except String SwapRespM),
        (bulkCreateOrders assets balances pct o1).calls =
          (bulkCreateOrders assets balances pct o2).calls) ∧
    (∀ (assets : List String) (balances : String → Option BalanceM) (pct : Int)
        (outcome : String → Except String SwapRespM),
        (bulkCreateOrders assets balances pct outcome).calls =
          assets.filter (fun a => (balances a).isSome)) ∧
    (∀ (assets : List String) (balances : String → Option BalanceM) (pct : Int)
        (outcome : String → Except String SwapRespM) (a : String) (b : BalanceM)
        (r : SwapRespM), a ∈ assets → balances a = some b → outcome a = .ok r →
        mkBulkOrder a b (bulkInputAmount b.totalAmount pct) r ∈
          (bulkCreateOrders assets balances pct outcome).orders) ∧
    (∀ (assets : List String) (balances : String → Option BalanceM) (pct : Int)
        (outcome : String → Except String SwapRespM) (a : String) (b : BalanceM)
        (m : String), a ∈ assets → balances a = some b → outcome a = .error m →
        a ∈ (bulkCreateOrders assets balances pct outcome).failures) := by
  have hfilter : ∀ (assets : List String) (balances : String → Option BalanceM)
      (pct : Int) (outcome : String → Except String SwapRespM),
      (bulkCreateOrders assets balances pct outcome).calls =
        assets.filter (fun a => (balances a).isSome) := by
    intro assets balances pct outcome
    unfold bulkCreateOrders
    simp only
    congr 1
    funext a
    exact bulkStep_called balances pct outcome a
  refine ⟨?_, hfilter, ?_, ?_⟩
  · intro assets balances pct o1 o2
    rw [hfilter assets balances pct o1, hfilter assets balances pct o2]
  · intro assets balances pct outcome a b r ha hb hr
    unfold bulkCreateOrders
    simp only
    refine List.mem_filterMap.mpr ⟨a, ha, ?_⟩
    unfold bulkStep
    rw [hb, hr]
  · intro assets balances pct outcome a b m ha hb hm
    unfold bulkCreateOrders
    simp only
    refine List.mem_filter.mpr ⟨ha, ?_⟩
    unfold bulkStep
    rw [hb, hm]

/-- C6 witness: two selected assets where the first creation succeeds and
the second fails — the first's order is still collected and the second is
reported as a failure. -/
theorem C6_bulkIsolation_witness :
    ("a1" : String) ∈ ["a1", "a2"] ∧
    (fun a => if a == "a1" ∨ a == "a2" then some (⟨"S", "i", ⟨1, 2⟩⟩ : BalanceM)
      else none) "a1" = some ⟨"S", "i", ⟨1, 2⟩⟩ ∧
    (fun a => if a == "a1" then Except.ok (⟨"63.6", "tx", "oid", "tr"⟩ : SwapRespM)
      else Except.error "boom") "a1" = .ok ⟨"63.6", "tx", "oid", "tr"⟩ ∧
    mkBulkOrder "a1" ⟨"S", "i", ⟨1, 2⟩⟩ (bulkInputAmount ⟨1, 2⟩ 100)
        ⟨"63.6", "tx", "oid", "tr"⟩ ∈
      (bulkCreateOrders ["a1", "a2"]
        (fun a => if a == "a1" ∨ a == "a2" then some ⟨"S", "i", ⟨1, 2⟩⟩ else none) 100
        (fun a => if a == "a1" then Except.ok ⟨"63.6", "tx", "oid", "tr"⟩
          else Except.error "boom")).orders ∧
    ("a2" : String) ∈ ["a1", "a2"] ∧
    ("a2" : String) ∈ (bulkCreateOrders ["a1", "a2"]
        (fun a => if a == "a1" ∨ a == "a2" then some ⟨"S", "i", ⟨1, 2⟩⟩ else none) 100
        (fun a => if a == "a1" then Except.ok ⟨"63.6", "tx", "oid", "tr"⟩
          else Except.error "boom")).failures := by
  refine ⟨by simp, rfl, rfl, ?_, by simp, ?_⟩
  · exact C6_bulkIsolation.2.2.1 ["a1", "a2"]
      (fun a => if a == "a1" ∨ a == "a2" then some ⟨"S", "i", ⟨1, 2⟩⟩ else none) 100
      (fun a => if a == "a1" then Except.ok ⟨"63.6", "tx", "oid", "tr"⟩
        else Except.error "boom")
      "a1" ⟨"S", "i", ⟨1, 2⟩⟩ ⟨"63.6", "tx", "oid", "tr"⟩ (by simp) rfl rfl
  · exact C6_bulkIsolation.2.2.2 ["a1", "a2"]
      (fun a => if a == "a1" ∨ a == "a2" then some ⟨"S", "i", ⟨1, 2⟩⟩ else none) 100
      (fun a => if a == "a1" then Except.ok ⟨"63.6", "tx", "oid", "tr"⟩
        else Except.error "boom")
      "a2" ⟨"S", "i", ⟨1, 2⟩⟩ "boom" (by simp) rfl rfl

/-- C7: the payment polling step never stops the interval and never
surfaces an error; a 404 (trace not yet on the ledger) is treated as the
expected still-pending state and is not even logged; any other failure is
only logged; and every scheduled tick is processed. -/
theorem C7_pollingTolerance :
    (∀ (ap ip : Bool) (o : TxFetchOutcome),
        (checkPaymentStatus ap ip o).keepPolling = true ∧
        (checkPaymentStatus ap ip o).surfaced = false) ∧
    (∀ ap ip : Bool, (checkPaymentStatus ap ip (.httpFail 404)).logged = false) ∧
    (∀ s : Nat, s ≠ 404 →
        (checkPaymentStatus false false (.httpFail s)).logged = true) ∧
    (∀ m : String, (checkPaymentStatus false false (.otherFail m)).logged = true) ∧
    (∀ ticks : List TxFetchOutcome, (runPollTicks ticks).length = ticks.length) := by
  refine ⟨?_, ?_, ?_, ?_, ?_⟩
  · intro ap ip o
    unfold checkPaymentStatus
    split
    · exact ⟨rfl, rfl⟩
    · match o with
      | .okTx st => exact ⟨rfl, rfl⟩
      | .okNull => exact ⟨rfl, rfl⟩
      | .httpFail s => exact ⟨rfl, rfl⟩
      | .otherFail m => exact ⟨rfl, rfl⟩
  · intro ap ip
    unfold checkPaymentStatus
    split
    · rfl
    · rfl
  · intro s hs
    unfold checkPaymentStatus
    simp only [Bool.or_self, Bool.false_eq_true, if_false]
    simp [hs]
  · intro m
    rfl
  · intro ticks
    unfold runPollTicks
    exact List.length_map _ _

/-- C7 witness: the logging parts instantiated at a 404, a 500, and a
generic thrown error. -/
theorem C7_pollingTolerance_witness :
    (checkPaymentStatus false false (.httpFail 404)).logged = false ∧
    ((500 : Nat) ≠ 404 ∧
      (checkPaymentStatus false false (.httpFail 500)).logged = true) ∧
    (checkPaymentStatus false false (.otherFail "network down")).logged = true ∧
    (checkPaymentStatus false false (.httpFail 500)).keepPolling = true :=
  ⟨C7_pollingTolerance.2.1 false false,
   ⟨by omega, C7_pollingTolerance.2.2.1 500 (by omega)⟩,
   C7_pollingTolerance.2.2.2.1 "network down",
   (C7_pollingTolerance.1 false false (.httpFail 500)).1⟩

/-- C8 counterexample: with a balance of "0.1", sell percentage 100 and a
30/70 split, the first order's input amount — computed by the handler as
`totalSellAmount * percentage / 100` on binary64 doubles — is not equal to
the exact decimal value `0.1 * 100/100 * 30/100 = 3/100`: the percentage
allocation is performed in binary floating point and loses precision, so
it is not decimal-safe as claimed. -/
theorem C8_counterexample :
    ((handleCalculateSwapSplit true (some "src")
      [⟨"t1", "A", 30, ⟨1, 1⟩⟩, ⟨"t2", "B", 70, ⟨1, 1⟩⟩]
      (some ⟨1, 10⟩) 100).networkRequests.map (·.inputAmount)).getD 0 ⟨0, 1⟩ =
      ⟨8646911284551352, 288230376151711744⟩ ∧
    ¬ QR.eqv (⟨8646911284551352, 288230376151711744⟩ : QR) ⟨3, 100⟩ ∧
    QR.eqv (qrDivExact (qrMulExact (qrMulExact ⟨1, 10⟩
      (qrDivExact ⟨100, 1⟩ ⟨100, 1⟩)) ⟨30, 1⟩) ⟨100, 1⟩) ⟨3, 100⟩ := by
  refine ⟨by decide, by decide, by decide⟩

/-- C8 amended: amounts are decimal strings parsed with `parseFloat` and
the percentage allocations are computed with binary64 double arithmetic
(each multiplication and division correctly rounded), which can drift
from the exact decimal result; the client never re-derives an amount the
server already quoted — every collected order's `outputAmount` is the
server's `outAmount` verbatim. -/
theorem C8_amended (assets : List String) (balances : String → Option BalanceM)
    (pct : Int) (outcome : String → Except String SwapRespM) (o : BulkOrderM)
    (ho : o ∈ (bulkCreateOrders assets balances pct outcome).orders) :
    (∃ a b r, balances a = some b ∧ outcome a = .ok r ∧
      o.outputAmount = r.outAmount ∧
      o.inputAmount = jsDiv (jsMul (parseFloatQ b.totalAmount) (qrOfInt pct))
        (qrOfInt 100)) ∧
    (∀ (a : String) (b : BalanceM) (amt : QR) (r : SwapRespM),
      (mkBulkOrder a b amt r).outputAmount = r.outAmount) := by
  refine ⟨?_, fun a b amt r => rfl⟩
  unfold bulkCreateOrders at ho
  simp only at ho
  obtain ⟨a, _, hstep⟩ := List.mem_filterMap.mp ho
  refine ⟨a, ?_⟩
  unfold bulkStep at hstep
  match hb : balances a with
  | none =>
      rw [hb] at hstep
      cases hstep
  | some b =>
      rw [hb] at hstep
      match hr : outcome a with
      | .ok r =>
          rw [hr] at hstep
          simp only [Option.some.injEq] at hstep
          exact ⟨b, r, rfl, rfl, by rw [← hstep]; rfl, by rw [← hstep]; rfl⟩
      | .error m =>
          rw [hr] at hstep
          cases hstep

/-- C8 witness: the amended statement instantiated at a one-asset bulk run
whose quote answers `63.667264` — the collected order carries that string
verbatim. -/
theorem C8_amended_witness :
    mkBulkOrder "a1" ⟨"S", "i", ⟨1, 10⟩⟩ (bulkInputAmount ⟨1, 10⟩ 100)
        ⟨"63.667264", "tx", "oid", "tr"⟩ ∈
      (bulkCreateOrders ["a1"] (fun _ => some ⟨"S", "i", ⟨1, 10⟩⟩) 100
        (fun _ => .ok ⟨"63.667264", "tx", "oid", "tr"⟩)).orders ∧
    ((∃ a b r, (fun (_ : String) => some (⟨"S", "i", ⟨1, 10⟩⟩ : BalanceM)) a = some b ∧
        (fun (_ : String) => (Except.ok ⟨"63.667264", "tx", "oid", "tr"⟩ :
          Except String SwapRespM)) a = .ok r ∧
        (mkBulkOrder "a1" ⟨"S", "i", ⟨1, 10⟩⟩ (bulkInputAmount ⟨1, 10⟩ 100)
          ⟨"63.667264", "tx", "oid", "tr"⟩).outputAmount = r.outAmount ∧
        (mkBulkOrder "a1" ⟨"S", "i", ⟨1, 10⟩⟩ (bulkInputAmount ⟨1, 10⟩ 100)
          ⟨"63.667264", "tx", "oid", "tr"⟩).inputAmount =
          jsDiv (jsMul (parseFloatQ b.totalAmount) (qrOfInt 100)) (qrOfInt 100)) ∧
      (∀ (a : String) (b : BalanceM) (amt : QR) (r : SwapRespM),
        (mkBulkOrder a b amt r).outputAmount = r.outAmount)) := by
  have hmem : mkBulkOrder "a1" ⟨"S", "i", ⟨1, 10⟩⟩ (bulkInputAmount ⟨1, 10⟩ 100)
      ⟨"63.667264", "tx", "oid", "tr"⟩ ∈
      (bulkCreateOrders ["a1"] (fun _ => some ⟨"S", "i", ⟨1, 10⟩⟩) 100
        (fun _ => .ok ⟨"63.667264", "tx", "oid", "tr"⟩)).orders := by
    unfold bulkCreateOrders bulkStep
    simp
  exact ⟨hmem, C8_amended ["a1"] (fun _ => some ⟨"S", "i", ⟨1, 10⟩⟩) 100
    (fun _ => .ok ⟨"63.667264", "tx", "oid", "tr"⟩) _ hmem⟩

/-- C9 counterexample: a 16-byte local seed is not rejected — the
derivation hashes it as-is and succeeds, returning a shared secret, so
the claimed failure on a non-32-byte local seed does not occur (and no
typed InvalidKeyMaterial exists anywhere in the pipeline). -/
theorem C9_counterexample :
    (List.replicate 16 2 : List Nat).length ≠ 32 ∧
    generateSharedKey (List.replicate 16 2) sampleRemoteKey =
      .ok [127, 146, 207, 64, 174, 80, 246, 84, 244, 110, 116, 255, 232, 34,
           167, 253, 253, 25, 22, 238, 74, 41, 129, 169, 22, 156, 205, 233,
           242, 159, 31, 10] := by
  refine ⟨by decide, by decide⟩

/-- C9 amended: the derivation has no typed InvalidKeyMaterial and does
not validate the local seed's length — a seed of any length is accepted,
since its SHA-512-clamp always produces a 32-byte scalar. A remote public
key that is not 32 bytes is rejected with the curve library's generic
length error, and a 32-byte remote key can also be rejected by the
library's zero-shared-secret check (the all-zero key, for instance),
again with a generic error. A failed signature computation propagates
before the retry loop, so it is never retried — zero fetch attempts are
made. -/
theorem C9_amended (seed pub : List Nat) (hpub : pub.length ≠ 32) :
    generateSharedKey seed pub = .error "invalid u coordinate length" ∧
    (ed25519PrivateToCurve25519 seed).length = 32 ∧
    generateSharedKey sampleSeed (List.replicate 32 0) =
      .error "invalid private or public key received" ∧
    (∀ (m : String) (fetch : Nat → FetchOutcome) (r d : Nat),
        doRequestWithSigning (.error m) fetch r d = ⟨.error (.net m), 0, []⟩) := by
  refine ⟨?_, ed25519PrivateToCurve25519_length seed, by decide,
    fun m fetch r d => rfl⟩
  unfold generateSharedKey x25519GetSharedSecret
  rw [ed25519PrivateToCurve25519_length seed]
  simp [hpub]

/-- C9 witness: the amended statement instantiated at a 31-byte remote
key. -/
theorem C9_amended_witness :
    (List.replicate 31 3 : List Nat).length ≠ 32 ∧
    (generateSharedKey sampleSeed (List.replicate 31 3) =
      .error "invalid u coordinate length" ∧
    (ed25519PrivateToCurve25519 sampleSeed).length = 32 ∧
    generateSharedKey sampleSeed (List.replicate 32 0) =
      .error "invalid private or public key received" ∧
    (∀ (m : String) (fetch : Nat → FetchOutcome) (r d : Nat),
        doRequestWithSigning (.error m) fetch r d = ⟨.error (.net m), 0, []⟩)) :=
  ⟨by decide, C9_amended sampleSeed (List.replicate 31 3) (by decide)⟩

/-- C10 counterexample: the counterparty public key is cached in a
module-global cell, not per client instance — after one client's
`fetchUserSession` stores the key `[1]`, a second, freshly constructed
client (whose own state is only the null `sharedKeyPromise`) observes the
first client's cached key instead of fetching its own `[2]`, with no
network call. -/
theorem C10_counterexample :
    fetchUserSession (fetchUserSession ⟨none⟩ [1]).newState [2] =
      ⟨⟨some [1]⟩, [1], false⟩ ∧
    ([1] : List Nat) ≠ [2] ∧
    mkWeb3Client.sharedKeyPromise = none := by
  refine ⟨rfl, by decide, rfl⟩

/-- C10 amended: the derived shared secret is held per instance (a fresh
`Web3Client` starts with a null `sharedKeyPromise`, and a fresh
`RouteAPISigner` starts with an empty `sharedKeyCache`, so it derives
anew rather than reusing another instance's entry), but the counterparty
public key is cached module-globally in mixin-route-client.ts: any call
finding the global cache populated returns the cached key without a
network fetch, including calls made by a different, later-constructed
client. -/
theorem C10_amended (st : RouteClientModuleState) (k k2 : List Nat)
    (hcache : st.cachedRouteBotPublicKey = some k) :
    mkWeb3Client.sharedKeyPromise = none ∧
    mkRouteAPISigner.sharedKeyCache = [] ∧
    fetchUserSession st k2 = ⟨st, k, false⟩ ∧
    (∀ k' : List Nat, fetchUserSession ⟨none⟩ k' = ⟨⟨some k'⟩, k', true⟩) ∧
    (∀ (botId : String) (derived : List Nat),
        signerGetSharedKey mkRouteAPISigner botId derived =
          (⟨[(botId, derived)]⟩, derived, true)) := by
  refine ⟨rfl, rfl, ?_, fun k' => rfl, fun botId derived => rfl⟩
  unfold fetchUserSession
  rw [hcache]

/-- C10 witness: the amended statement instantiated at a module state that
already caches `[9]`. -/
theorem C10_amended_witness :
    (RouteClientModuleState.mk (some [9])).cachedRouteBotPublicKey = some [9] ∧
    (mkWeb3Client.sharedKeyPromise = none ∧
    mkRouteAPISigner.sharedKeyCache = [] ∧
    fetchUserSession ⟨some [9]⟩ [7] = ⟨⟨some [9]⟩, [9], false⟩ ∧
    (∀ k' : List Nat, fetchUserSession ⟨none⟩ k' = ⟨⟨some k'⟩, k', true⟩) ∧
    (∀ (botId : String) (derived : List Nat),
        signerGetSharedKey mkRouteAPISigner botId derived =
          (⟨[(botId, derived)]⟩, derived, true))) :=
  ⟨rfl, C10_amended ⟨some [9]⟩ [9] [7] rfl⟩
